import Mathlib

/-!
Verification of the educational-content workflow engine
(`src/mastra/workflows/improvedEducationalContentWorkflow.ts`,
`progressTrackingTool`, `chunkedContentGenerationTool`).

The TypeScript sources are shallowly embedded: pure functions become Lean
functions, the progress store becomes explicit state passing over a
`ProgressData` record, JavaScript strings become `String`/`List Char`, and
JavaScript numbers become `Nat`/`Int`/`Rat` as appropriate.  Wall-clock
timestamps (produced by `new Date().toISOString()` in the source) are passed
in as abstract `String` parameters.
-/

namespace EduContent

/-! ## JavaScript character classes and basic string helpers -/

/-- JavaScript's `\s` character class (whitespace as used by `trim`,
`split(/\s+/)` and the outline regexes). -/
def isSpaceCh (c : Char) : Bool :=
  c = ' ' || c = '\t' || c = '\n' || c = '\r' || c.toNat = 0x0b || c.toNat = 0x0c ||
  c.toNat = 0xa0 || c.toNat = 0x1680 || (0x2000 ≤ c.toNat && c.toNat ≤ 0x200a) ||
  c.toNat = 0x2028 || c.toNat = 0x2029 || c.toNat = 0x202f || c.toNat = 0x205f ||
  c.toNat = 0x3000 || c.toNat = 0xfeff

/-- Characters matched by `.` in a JavaScript regex without the `s` flag:
anything except a line terminator. -/
def isDotCh (c : Char) : Bool :=
  !(c = '\n' || c = '\r' || c.toNat = 0x2028 || c.toNat = 0x2029)

/-- ASCII lower-casing, as applied by `toLowerCase()` to the ASCII range. -/
def lowerCh (c : Char) : Char :=
  if 'A' ≤ c && c ≤ 'Z' then Char.ofNat (c.toNat + 32) else c

/-- `trim()` on a character list: strip JavaScript whitespace at both ends. -/
def jsTrimL (cs : List Char) : List Char :=
  ((cs.dropWhile isSpaceCh).reverse.dropWhile isSpaceCh).reverse

/-- `trim()` on a string. -/
def jsTrim (s : String) : String := String.mk (jsTrimL s.data)

/-- Does the character list begin with the given pattern (exact characters)? -/
def leadsWith : List Char → List Char → Bool
  | [], _ => true
  | _ :: _, [] => false
  | p :: ps, c :: cs => (p == c) && leadsWith ps cs

/-- Does the character list begin with the given pattern, comparing
case-insensitively (the pattern is given in lower case)? -/
def leadsWithCI : List Char → List Char → Bool
  | [], _ => true
  | _ :: _, [] => false
  | p :: ps, c :: cs => (p == lowerCh c) && leadsWithCI ps cs

/-- `haystack.includes(needle)` on character lists. -/
def includesAux : List Char → List Char → Bool
  | [], n => n.isEmpty
  | c :: r, n => leadsWith n (c :: r) || includesAux r n

/-- JavaScript `s.includes(pat)`. -/
def jsIncludes (s pat : String) : Bool := includesAux s.data pat.data

/-- JavaScript `s.toLowerCase()` (ASCII model). -/
def toLowerStr (s : String) : String := String.mk (s.data.map lowerCh)

/-- JavaScript `s.split('\n')` (used on the outline text). -/
def jsSplitLinesAux : List Char → List Char → List String
  | [], cur => [String.mk cur.reverse]
  | c :: r, cur =>
    if c = '\n' then String.mk cur.reverse :: jsSplitLinesAux r []
    else jsSplitLinesAux r (c :: cur)

/-- JavaScript `s.split('\n')`. -/
def jsSplitLines (s : String) : List String := jsSplitLinesAux s.data []

/-! ## Word counting (`chunkedContentGenerationTool`, line
`const wordCount = response.split(/\s+/).length`) -/

/-- `s.split(/\s+/)` on a character list: `cur` is the current piece
(reversed), `prevWs` records whether we are inside a whitespace run. -/
def jsSplitWsAux : List Char → List Char → Bool → List (List Char)
  | [], cur, _ => [cur.reverse]
  | c :: rest, cur, prevWs =>
    if isSpaceCh c then
      if prevWs then jsSplitWsAux rest cur true
      else cur.reverse :: jsSplitWsAux rest [] true
    else jsSplitWsAux rest (c :: cur) false

/-- JavaScript `s.split(/\s+/)`. -/
def jsSplitWs (cs : List Char) : List (List Char) := jsSplitWsAux cs [] false

/-- The word count the adapter computes for generated section text:
`response.split(/\s+/).length`. -/
def wordCount (text : String) : Nat := (jsSplitWs text.data).length

/-- Modelled from the spec: "count of whitespace-delimited tokens in text" —
the number of maximal nonempty runs of non-whitespace characters.  The flag
records whether the previous character was inside a token. -/
def tokenCountAux : List Char → Bool → Nat
  | [], _ => 0
  | c :: r, inTok =>
    if isSpaceCh c then tokenCountAux r false
    else (if inTok then 0 else 1) + tokenCountAux r true

/-- Modelled from the spec: the whitespace-delimited token count. -/
def tokenCount (text : String) : Nat := tokenCountAux text.data false

/-- Does the text begin with a whitespace character? -/
def startsWithWs (s : String) : Bool :=
  match s.data with
  | c :: _ => isSpaceCh c
  | [] => false

/-- Does the text end with a whitespace character? -/
def endsWithWs (s : String) : Bool :=
  match s.data.getLast? with
  | some c => isSpaceCh c
  | none => false

/-! ## Publication gate (`reviewContentStep`, lines 424–430) -/

/-- The decision computed by `reviewContentStep`:
`qualityScore >= 7.0 && !review.toLowerCase().includes('not approved') &&
!review.toLowerCase().includes('needs major revision')`.
The score is a JavaScript number, modelled as a rational. -/
def approvedForPublication (qualityScore : ℚ) (reviewText : String) : Bool :=
  decide (7 ≤ qualityScore) &&
  !(jsIncludes (toLowerStr reviewText) "not approved") &&
  !(jsIncludes (toLowerStr reviewText) "needs major revision")

/-- Modelled from the spec: the review text "contains (case-insensitive)" the
given phrase — the lower-cased phrase occurs as a contiguous substring of the
lower-cased text. -/
def ContainsCI (t pat : String) : Prop := pat.data <:+: t.data.map lowerCh

/-! ## Retry loop of the content generation adapter
(`generateContentChunk`, lines 36 and 47–119) -/

/-- `const maxRetries = config.retryAttempts || 3;` — a missing or falsy
(zero) `retryAttempts` falls back to 3. -/
def effectiveMaxRetries (retryAttempts : Option Nat) : Nat :=
  match retryAttempts with
  | some n => if n = 0 then 3 else n
  | none => 3

/-- `Math.min(1000 * Math.pow(2, attempt - 1), 30000)` — the backoff computed
after a failed attempt, slept before the next attempt. -/
def backoffMs (attempt : Nat) : Nat := min (1000 * 2 ^ (attempt - 1)) 30000

/-- The `for (attempt = 1; attempt <= maxRetries; attempt++)` loop of
`generateContentChunk`, abstracted over the success of each attempt
(`gen attempt = true` means the generation call succeeds).  Returns the trace
of attempts as `(attemptNumber, waitBeforeAttemptMs)` pairs.  The fuel
argument counts the remaining allowed attempts (`maxRetries - attempt + 1`),
so `fuel = 1` means the current attempt is the last one (on failure the loop
throws instead of backing off). -/
def attemptTraceAux (gen : Nat → Bool) : Nat → Nat → Nat → List (Nat × Nat)
  | 0, _, _ => []
  | fuel + 1, attempt, wait =>
    (attempt, wait) ::
      (if gen attempt then []
       else if fuel = 0 then []
       else attemptTraceAux gen fuel (attempt + 1) (backoffMs attempt))

/-- The attempt trace of one adapter call with retry limit `maxRetries`:
attempt 1 starts with no prior wait. -/
def runTrace (gen : Nat → Bool) (maxRetries : Nat) : List (Nat × Nat) :=
  attemptTraceAux gen maxRetries 1 0

/-! ## Outline parser (`parseOutlineIntoChapters`, lines 594–661)

The two regexes are embedded as backtracking matchers over `List Char`.
Greedy quantifiers followed by an overlapping class are modelled by trying
the greedy branch first and falling back (`match … with | some r => some r
| none => …`), which is exactly the regex engine's backtracking order; where
adjacent classes are disjoint (digits vs. separators, whitespace vs. digits)
no backtracking can occur and the matcher is written with maximal munch. -/

/-- `(.+)$` — the capture succeeds if the remaining characters are nonempty
and each is matched by `.`. -/
def capRest (s : List Char) : Option (List Char) :=
  if s ≠ [] && s.all isDotCh then some s else none

/-- `[:\.\s]` — the separator class of the chapter regex. -/
def isSepCh (c : Char) : Bool := c = ':' || c = '.' || isSpaceCh c

/-- `[:\.\s]*(.+)$` with the separator run greedy: consume another separator
first, fall back to starting the capture at this character. -/
def chAfterSep : List Char → Option (List Char)
  | [] => none
  | c :: r =>
    if isSepCh c then
      match chAfterSep r with
      | some t => some t
      | none => capRest (c :: r)
    else capRest (c :: r)

/-- `\d*[:\.\s]+(.+)$` — further digits of `(\d+)`, then at least one
separator (digits and separators are disjoint, so no backtracking). -/
def chDigits : List Char → Option (List Char)
  | [] => none
  | c :: r =>
    if c.isDigit then chDigits r
    else if isSepCh c then chAfterSep r
    else none

/-- `(\d+)[:\.\s]+(.+)$` — the body of the chapter regex after the optional
keyword; returns the title capture. -/
def chBody : List Char → Option (List Char)
  | [] => none
  | c :: r => if c.isDigit then chDigits r else none

/-- The chapter-header regex `/^(?:Chapter\s+)?(\d+)[:\.\s]+(.+)$/i` applied
to a trimmed line, returning the title capture (`chapterMatch[2]`).  The
`Chapter`-keyword branch and the bare-digits branch can never both match
(a line starts with a letter or with a digit), so trying them in either
order is equivalent to the engine's. -/
def chMatch (cs : List Char) : Option (List Char) :=
  match chBody cs with
  | some t => some t
  | none =>
    if leadsWithCI "chapter".data cs then
      let rest := cs.drop 7
      let rest1 := rest.dropWhile isSpaceCh
      if rest1.length < rest.length then chBody rest1 else none
    else none

/-- `\s*(.+)$` with the whitespace run greedy (whitespace is also matched by
`.`, so backtracking applies). -/
def secFinal : List Char → Option (List Char)
  | [] => none
  | c :: r =>
    if isSpaceCh c then
      match secFinal r with
      | some t => some t
      | none => capRest (c :: r)
    else capRest (c :: r)

/-- `Section\s+\d+\.\d+:\s*(.+)$` — the optional label group of the section
regex (case-sensitive: the regex has no `i` flag) followed by the capture.
Whitespace/digit and digit/`.`/`:` boundaries are disjoint, so those
quantifiers are deterministic. -/
def secGroup (s : List Char) : Option (List Char) :=
  if leadsWith "Section".data s then
    let r0 := s.drop 7
    let r1 := r0.dropWhile isSpaceCh
    if r1.length = r0.length then none
    else
      let r2 := r1.dropWhile Char.isDigit
      if r2.length = r1.length then none
      else
        match r2 with
        | '.' :: r3 =>
          let r4 := r3.dropWhile Char.isDigit
          if r4.length = r3.length then none
          else
            match r4 with
            | ':' :: r5 => secFinal r5
            | _ => none
        | _ => none
  else none

/-- `(?:Section\s+\d+\.\d+:\s*)?(.+)$` — the optional group is greedy, so it
is tried before the bare capture. -/
def secAfterWs (s : List Char) : Option (List Char) :=
  match secGroup s with
  | some t => some t
  | none => capRest s

/-- `\s*(?:Section\s+\d+\.\d+:\s*)?(.+)$` with the leading whitespace run
greedy. -/
def secWsStar : List Char → Option (List Char)
  | [] => none
  | c :: r =>
    if isSpaceCh c then
      match secWsStar r with
      | some t => some t
      | none => secAfterWs (c :: r)
    else secAfterWs (c :: r)

/-- The section regex `/^[-•]\s*(?:Section\s+\d+\.\d+:\s*)?(.+)$/` applied to
a trimmed line, returning the title capture (`sectionMatch[1]`). -/
def secMatch : List Char → Option (List Char)
  | [] => none
  | c :: r => if c = '-' || c = '•' then secWsStar r else none

/-- One chapter of the parsed outline (the element type of
`parseOutlineIntoChapters`' result). -/
structure OChapter where
  number : Nat
  title : String
  sections : List String
  targetWordCount : Nat
  deriving DecidableEq, Repr

/-- `trimmedLine.startsWith('-')`. -/
def beginsWithDash : List Char → Bool
  | c :: _ => c = '-'
  | [] => false

/-- Close out the chapter currently being built, if any
(`if (currentChapter) chapters.push(currentChapter)`). -/
def pushCur (acc : List OChapter) : Option OChapter → List OChapter
  | some c => acc ++ [c]
  | none => acc

/-- A line is recognized as a chapter header when the chapter regex matches
its trimmed form and the trimmed line does not start with `-`
(`if (chapterMatch && !trimmedLine.startsWith('-'))`). -/
def isChapterHeaderLine (line : String) : Bool :=
  (chMatch (jsTrim line).data).isSome && !(beginsWithDash (jsTrim line).data)

/-- The `for (const line of lines)` loop of `parseOutlineIntoChapters`:
state is the chapter being built, the next auto-assigned chapter number, and
the chapters pushed so far. -/
def parseLoop (wpc : Nat) : List String → Option OChapter → Nat → List OChapter → List OChapter
  | [], cur, _, acc => pushCur acc cur
  | line :: rest, cur, num, acc =>
    let t := jsTrim line
    let (cur1, num1, acc1) :=
      match chMatch t.data with
      | some cap =>
        if beginsWithDash t.data then (cur, num, acc)
        else (some { number := num, title := String.mk (jsTrimL cap),
                     sections := [], targetWordCount := wpc },
              num + 1, pushCur acc cur)
      | none => (cur, num, acc)
    let cur2 :=
      match secMatch t.data, cur1 with
      | some cap, some c => some { c with sections := c.sections ++ [String.mk (jsTrimL cap)] }
      | _, _ => cur1
    parseLoop wpc rest cur2 num1 acc1

/-- `parseOutlineIntoChapters(outlineText, targetWordCount)`: line-by-line
parse with a default 8-chapter fallback when no chapter was recognized.
`wordsPerChapter = Math.floor(targetWordCount / estimatedChapters)` with
`estimatedChapters = 10`. -/
def parseOutlineIntoChapters (outlineText : String) (targetWordCount : Nat) : List OChapter :=
  let wordsPerChapter := targetWordCount / 10
  let chapters := parseLoop wordsPerChapter (jsSplitLines outlineText) none 1 []
  if chapters.isEmpty then
    (List.range 8).map (fun i =>
      { number := i + 1, title := "Chapter " ++ toString (i + 1),
        sections := ["Introduction", "Core Concepts", "Practical Examples",
                     "Advanced Topics", "Summary"],
        targetWordCount := wordsPerChapter })
  else chapters

/-! ## Progress store (`progressTrackingTool`)

The persisted JSON record is `ProgressData`; the file system keyed by
`workflowId` is a `Store := String → Option ProgressData`.  Timestamps are
abstract strings supplied by the caller (`now`). -/

/-- Run status (`'in_progress' | 'completed' | 'failed' | 'paused'`). -/
inductive Status where
  | in_progress
  | completed
  | failed
  | paused
  deriving DecidableEq, Repr

/-- One entry of `completedChapterDetails`. -/
structure ChapterDetail where
  chapterNumber : Nat
  title : String
  wordCount : Nat
  completedAt : String
  deriving DecidableEq, Repr

/-- The persisted `ProgressData` record. -/
structure ProgressData where
  workflowId : String
  topic : String
  startTime : String
  currentStep : String
  completedChapters : Nat
  totalChapters : Nat
  completedSections : Nat
  totalSections : Nat
  totalWordsGenerated : Nat
  targetWordCount : Nat
  lastUpdate : String
  status : Status
  errors : List String
  completedChapterDetails : List ChapterDetail
  deriving DecidableEq, Repr

/-- The record created by the `initialize` action: `status = in_progress`,
zeroed counters, `startTime = lastUpdate = now`. -/
def initRecord (wid topic : String) (totalChapters totalSections targetWordCount : Nat)
    (now : String) : ProgressData :=
  { workflowId := wid
    topic := topic
    startTime := now
    currentStep := "Initializing"
    completedChapters := 0
    totalChapters := totalChapters
    completedSections := 0
    totalSections := totalSections
    totalWordsGenerated := 0
    targetWordCount := targetWordCount
    lastUpdate := now
    status := Status.in_progress
    errors := []
    completedChapterDetails := [] }

/-- The optional fields of an `update` action
(`currentStep, completedChapters, completedSections, totalWordsGenerated,
chapterCompleted, error`). -/
structure UpdatePayload where
  currentStep : Option String := none
  completedChapters : Option Nat := none
  completedSections : Option Nat := none
  totalWordsGenerated : Option Nat := none
  chapterCompleted : Option (Nat × String × Nat) := none
  error : Option String := none
  deriving DecidableEq, Repr

/-- `if (context.currentStep) progress.currentStep = context.currentStep` —
JavaScript truthiness: present and nonempty. -/
def setCurrentStep (p : ProgressData) (o : Option String) : ProgressData :=
  match o with
  | some s => if s ≠ "" then { p with currentStep := s } else p
  | none => p

/-- `if (context.completedChapters !== undefined) …` — an explicit
`undefined` check, so `0` is accepted. -/
def setCChapters (p : ProgressData) (o : Option Nat) : ProgressData :=
  match o with
  | some n => { p with completedChapters := n }
  | none => p

/-- `if (context.completedSections !== undefined) …`. -/
def setCSections (p : ProgressData) (o : Option Nat) : ProgressData :=
  match o with
  | some n => { p with completedSections := n }
  | none => p

/-- `if (context.totalWordsGenerated !== undefined) …`. -/
def setTWG (p : ProgressData) (o : Option Nat) : ProgressData :=
  match o with
  | some n => { p with totalWordsGenerated := n }
  | none => p

/-- `if (context.error) progress.errors.push(now + ": " + context.error)` —
truthiness again: present and nonempty. -/
def pushError (p : ProgressData) (o : Option String) (now : String) : ProgressData :=
  match o with
  | some e => if e ≠ "" then { p with errors := p.errors ++ [now ++ ": " ++ e] } else p
  | none => p

/-- `if (context.chapterCompleted) progress.completedChapterDetails.push(…)`. -/
def pushChapterDetail (p : ProgressData) (o : Option (Nat × String × Nat))
    (now : String) : ProgressData :=
  match o with
  | some (n, t, w) =>
    { p with completedChapterDetails :=
        p.completedChapterDetails ++ [{ chapterNumber := n, title := t, wordCount := w, completedAt := now }] }
  | none => p

/-- The `update` action applied to a loaded record (source lines 165–181),
field by field in source order, finishing with `lastUpdate = now`. -/
def applyUpdate (p : ProgressData) (u : UpdatePayload) (now : String) : ProgressData :=
  let p1 := setCurrentStep p u.currentStep
  let p2 := setCChapters p1 u.completedChapters
  let p3 := setCSections p2 u.completedSections
  let p4 := setTWG p3 u.totalWordsGenerated
  let p5 := pushError p4 u.error now
  let p6 := pushChapterDetail p5 u.chapterCompleted now
  { p6 with lastUpdate := now }

/-- The `complete` action (source lines 189–193): sets status and step
unconditionally. -/
def applyComplete (p : ProgressData) (now : String) : ProgressData :=
  { p with status := Status.completed, currentStep := "Completed", lastUpdate := now }

/-- The `fail` action (source lines 197–202): sets status and step
unconditionally, appending the error message when supplied. -/
def applyFail (p : ProgressData) (err : Option String) (now : String) : ProgressData :=
  let p1 := { p with status := Status.failed, currentStep := "Failed" }
  let p2 := pushError p1 err now
  { p2 with lastUpdate := now }

/-- `Math.round` for a nonnegative-or-any rational: round half toward `+∞`. -/
def jsRound (q : ℚ) : ℤ := ⌊q + 1 / 2⌋

/-- The derived progress percentage (source lines 208–210):
`Math.round(Math.max(sectionProgress, wordProgress))`, each ratio scaled to
percent and guarded against a zero denominator. -/
def progressPercentage (p : ProgressData) : ℤ :=
  let sectionProgress : ℚ :=
    if p.totalSections > 0 then (p.completedSections : ℚ) / (p.totalSections : ℚ) * 100 else 0
  let wordProgress : ℚ :=
    if p.targetWordCount > 0 then (p.totalWordsGenerated : ℚ) / (p.targetWordCount : ℚ) * 100 else 0
  jsRound (max sectionProgress wordProgress)

/-- The progress view returned to callers/monitors.  The
`estimatedTimeRemaining` display string is omitted from the model: it is
derived from wall-clock date arithmetic. -/
structure ProgressView where
  workflowId : String
  topic : String
  currentStep : String
  completedChapters : Nat
  totalChapters : Nat
  completedSections : Nat
  totalSections : Nat
  totalWordsGenerated : Nat
  targetWordCount : Nat
  progressPercentage : ℤ
  status : Status
  lastUpdate : String
  deriving DecidableEq, Repr

/-- The view of a record with an explicitly given percentage
(the `initialize` branch returns `progressPercentage: 0`). -/
def viewOf (p : ProgressData) (pct : ℤ) : ProgressView :=
  { workflowId := p.workflowId
    topic := p.topic
    currentStep := p.currentStep
    completedChapters := p.completedChapters
    totalChapters := p.totalChapters
    completedSections := p.completedSections
    totalSections := p.totalSections
    totalWordsGenerated := p.totalWordsGenerated
    targetWordCount := p.targetWordCount
    progressPercentage := pct
    status := p.status
    lastUpdate := p.lastUpdate }

/-- The tool's `action` input. -/
inductive PAction where
  | init
  | update
  | get
  | complete
  | fail
  deriving DecidableEq, Repr

/-- The action names as they appear in the input schema and in the
success message `Progress ${action} completed successfully`. -/
def actionName : PAction → String
  | PAction.init => "initialize"
  | PAction.update => "update"
  | PAction.get => "get"
  | PAction.complete => "complete"
  | PAction.fail => "fail"

/-- The tool's input context (`inputSchema`). -/
structure ToolInput where
  action : PAction
  workflowId : String
  topic : Option String := none
  totalChapters : Option Nat := none
  totalSections : Option Nat := none
  targetWordCount : Option Nat := none
  currentStep : Option String := none
  completedChapters : Option Nat := none
  completedSections : Option Nat := none
  totalWordsGenerated : Option Nat := none
  chapterCompleted : Option (Nat × String × Nat) := none
  error : Option String := none

/-- The tool's output (`outputSchema`): `success`, optional progress view,
optional message. -/
structure ToolOutput where
  success : Bool
  progress : Option ProgressView := none
  message : Option String := none
  deriving DecidableEq, Repr

/-- The persisted store: `loadProgress` is lookup, `saveProgress` is
point update. -/
def Store := String → Option ProgressData

/-- `saveProgress(workflowId, progress)`. -/
def saveProgress (store : Store) (wid : String) (p : ProgressData) : Store :=
  fun k => if k = wid then some p else store k

/-- JavaScript truthiness of an optional string (`!context.topic`). -/
def truthyStr (o : Option String) : Bool := o.getD "" ≠ ""

/-- JavaScript truthiness of an optional number (`!context.totalChapters`):
missing and `0` are falsy. -/
def truthyNat (o : Option Nat) : Bool := o.getD 0 ≠ 0

/-- The payload of an `update` action taken from the tool input. -/
def payloadOf (ctx : ToolInput) : UpdatePayload :=
  { currentStep := ctx.currentStep
    completedChapters := ctx.completedChapters
    completedSections := ctx.completedSections
    totalWordsGenerated := ctx.totalWordsGenerated
    chapterCompleted := ctx.chapterCompleted
    error := ctx.error }

/-- The body of the tool's `try` block (source lines 107–250): may throw
(`Except.error` carries the thrown message), otherwise returns the output
and the updated store. -/
def executeInner (store : Store) (ctx : ToolInput) (now : String) :
    Except String (ToolOutput × Store) :=
  if ctx.action = PAction.init then
    if !truthyStr ctx.topic || !truthyNat ctx.totalChapters ||
       !truthyNat ctx.totalSections || !truthyNat ctx.targetWordCount then
      Except.error "Topic, totalChapters, totalSections, and targetWordCount are required for initialization"
    else
      let progress := initRecord ctx.workflowId (ctx.topic.getD "") (ctx.totalChapters.getD 0)
        (ctx.totalSections.getD 0) (ctx.targetWordCount.getD 0) now
      Except.ok
        ({ success := true, progress := some (viewOf progress 0),
           message := some "Progress tracking initialized" },
         saveProgress store ctx.workflowId progress)
  else
    match store ctx.workflowId with
    | none => Except.error ("No progress found for workflow " ++ ctx.workflowId)
    | some progress =>
      let progress1 :=
        if ctx.action = PAction.update then applyUpdate progress (payloadOf ctx) now
        else if ctx.action = PAction.complete then applyComplete progress now
        else if ctx.action = PAction.fail then applyFail progress ctx.error now
        else progress
      let store1 :=
        if ctx.action = PAction.get then store else saveProgress store ctx.workflowId progress1
      Except.ok
        ({ success := true, progress := some (viewOf progress1 (progressPercentage progress1)),
           message := some ("Progress " ++ actionName ctx.action ++ " completed successfully") },
         store1)

/-- The tool's `execute`: the surrounding `catch` turns any thrown error into
a normal return with `success: false` and a message, leaving the store as it
was. -/
def executeTool (store : Store) (ctx : ToolInput) (now : String) : ToolOutput × Store :=
  match executeInner store ctx now with
  | Except.ok r => r
  | Except.error e =>
    ({ success := false, progress := none,
       message := some ("Progress tracking failed: " ++ e) }, store)

/-! ## Update calls issued by the pipeline
(`generateAllContentStep`, `reviewContentStep`, `generateFinalPDFStep`)

The generation capability is abstracted as
`gen chapterIdx sectionIdx = some wordCount` (success) or `none` (the
chunked tool threw after exhausting its retries); `emsg` gives the thrown
error's message text. -/

/-- The per-section inner loop of `generateAllContentStep` (source lines
195–270): on success it emits the after-section progress update
(`completedSections`, cumulative `totalWordsGenerated`); on failure it emits
the error-recording update and the whole run rethrows.  Returns the emitted
payloads and, on success of the whole chapter, the final
`(completedSections, chapterWordCount)`. -/
def sectionEmits (gen : Nat → Nat → Option Nat) (emsg : Nat → Nat → String) (ci : Nat) :
    List String → Nat → Nat → Nat → Nat → List UpdatePayload × Option (Nat × Nat)
  | [], _, cs, _, chWC => ([], some (cs, chWC))
  | s :: rest, si, cs, tot, chWC =>
    match gen ci si with
    | some w =>
      let u : UpdatePayload :=
        { completedSections := some (cs + 1), totalWordsGenerated := some (tot + (chWC + w)) }
      let r := sectionEmits gen emsg ci rest (si + 1) (cs + 1) tot (chWC + w)
      (u :: r.1, r.2)
    | none =>
      ([{ error := some ("Failed to generate section \"" ++ s ++ "\": " ++ emsg ci si) }],
       none)

/-- The per-chapter outer loop of `generateAllContentStep` (source lines
171–310): the chapter-start update (`currentStep`, current
`completedSections`), the section updates, and on chapter completion the
chapter update (`completedChapters`, `totalWordsGenerated`,
`chapterCompleted`).  The boolean is `false` when a section failure aborted
the stage (the stage rethrows). -/
def chapterEmits (gen : Nat → Nat → Option Nat) (emsg : Nat → Nat → String) :
    List OChapter → Nat → Nat → Nat → Nat → List UpdatePayload × Bool
  | [], _, _, _, _ => ([], true)
  | ch :: rest, ci, cs, tot, done =>
    let u0 : UpdatePayload :=
      { currentStep := some ("Generating Chapter " ++ toString ch.number ++ ": " ++ ch.title),
        completedSections := some cs }
    match sectionEmits gen emsg ci ch.sections 0 cs tot 0 with
    | (us, some (cs1, chWC)) =>
      let u1 : UpdatePayload :=
        { completedChapters := some (done + 1), totalWordsGenerated := some (tot + chWC),
          chapterCompleted := some (ch.number, ch.title, chWC) }
      let r := chapterEmits gen emsg rest (ci + 1) cs1 (tot + chWC) (done + 1)
      (u0 :: us ++ u1 :: r.1, r.2)
    | (us, none) => (u0 :: us, false)

/-- All update calls emitted by the GENERATE stage of one run. -/
def generateEmits (gen : Nat → Nat → Option Nat) (emsg : Nat → Nat → String)
    (chapters : List OChapter) : List UpdatePayload × Bool :=
  chapterEmits gen emsg chapters 0 0 0 0

/-- The sequence of `update` calls one run issues to the progress store:
the GENERATE stage's updates, followed (when generation completed, so the
run reaches REVIEW and PUBLISH) by the two `currentStep`-only updates of
`reviewContentStep` and `generateFinalPDFStep`. -/
def pipelineUpdates (gen : Nat → Nat → Option Nat) (emsg : Nat → Nat → String)
    (chapters : List OChapter) : List UpdatePayload :=
  let r := generateEmits gen emsg chapters
  if r.2 then
    r.1 ++ [{ currentStep := some "Reviewing generated content" },
            { currentStep := some "Generating final PDF" }]
  else r.1

/-- Fold a sequence of update payloads into the stored record, timestamping
the `k`-th update with `nows k`. -/
def foldApply (nows : Nat → String) : ProgressData → Nat → List UpdatePayload → ProgressData
  | r, _, [] => r
  | r, k, u :: us => foldApply nows (applyUpdate r u (nows k)) (k + 1) us

/-- The stored `completedSections` and `completedChapters` never decrease
across consecutive updates of the given sequence, starting from record `r`. -/
def CountersMono (nows : Nat → String) : ProgressData → Nat → List UpdatePayload → Prop
  | _, _, [] => True
  | r, k, u :: us =>
    (r.completedSections ≤ (applyUpdate r u (nows k)).completedSections ∧
     r.completedChapters ≤ (applyUpdate r u (nows k)).completedChapters) ∧
    CountersMono nows (applyUpdate r u (nows k)) (k + 1) us

/-! ## Projection lemmas for the store operations -/

theorem setCurrentStep_status (p : ProgressData) (o : Option String) :
    (setCurrentStep p o).status = p.status := by
  cases o with
  | none => rfl
  | some s => simp only [setCurrentStep]; split <;> rfl

theorem setCurrentStep_cs (p : ProgressData) (o : Option String) :
    (setCurrentStep p o).completedSections = p.completedSections := by
  cases o with
  | none => rfl
  | some s => simp only [setCurrentStep]; split <;> rfl

theorem setCurrentStep_cc (p : ProgressData) (o : Option String) :
    (setCurrentStep p o).completedChapters = p.completedChapters := by
  cases o with
  | none => rfl
  | some s => simp only [setCurrentStep]; split <;> rfl

theorem setCChapters_status (p : ProgressData) (o : Option Nat) :
    (setCChapters p o).status = p.status := by
  cases o <;> rfl

theorem setCChapters_cs (p : ProgressData) (o : Option Nat) :
    (setCChapters p o).completedSections = p.completedSections := by
  cases o <;> rfl

theorem setCChapters_cc (p : ProgressData) (o : Option Nat) :
    (setCChapters p o).completedChapters = o.getD p.completedChapters := by
  cases o <;> rfl

theorem setCSections_status (p : ProgressData) (o : Option Nat) :
    (setCSections p o).status = p.status := by
  cases o <;> rfl

theorem setCSections_cs (p : ProgressData) (o : Option Nat) :
    (setCSections p o).completedSections = o.getD p.completedSections := by
  cases o <;> rfl

theorem setCSections_cc (p : ProgressData) (o : Option Nat) :
    (setCSections p o).completedChapters = p.completedChapters := by
  cases o <;> rfl

theorem setTWG_status (p : ProgressData) (o : Option Nat) :
    (setTWG p o).status = p.status := by
  cases o <;> rfl

theorem setTWG_cs (p : ProgressData) (o : Option Nat) :
    (setTWG p o).completedSections = p.completedSections := by
  cases o <;> rfl

theorem setTWG_cc (p : ProgressData) (o : Option Nat) :
    (setTWG p o).completedChapters = p.completedChapters := by
  cases o <;> rfl

theorem pushError_status (p : ProgressData) (o : Option String) (now : String) :
    (pushError p o now).status = p.status := by
  cases o with
  | none => rfl
  | some e => simp only [pushError]; split <;> rfl

theorem pushError_cs (p : ProgressData) (o : Option String) (now : String) :
    (pushError p o now).completedSections = p.completedSections := by
  cases o with
  | none => rfl
  | some e => simp only [pushError]; split <;> rfl

theorem pushError_cc (p : ProgressData) (o : Option String) (now : String) :
    (pushError p o now).completedChapters = p.completedChapters := by
  cases o with
  | none => rfl
  | some e => simp only [pushError]; split <;> rfl

theorem pushChapterDetail_status (p : ProgressData) (o : Option (Nat × String × Nat)) (now : String) :
    (pushChapterDetail p o now).status = p.status := by
  cases o with
  | none => rfl
  | some d => rfl

theorem pushChapterDetail_cs (p : ProgressData) (o : Option (Nat × String × Nat)) (now : String) :
    (pushChapterDetail p o now).completedSections = p.completedSections := by
  cases o with
  | none => rfl
  | some d => rfl

theorem pushChapterDetail_cc (p : ProgressData) (o : Option (Nat × String × Nat)) (now : String) :
    (pushChapterDetail p o now).completedChapters = p.completedChapters := by
  cases o with
  | none => rfl
  | some d => rfl

theorem applyUpdate_status (p : ProgressData) (u : UpdatePayload) (now : String) :
    (applyUpdate p u now).status = p.status := by
  simp only [applyUpdate]
  rw [pushChapterDetail_status, pushError_status, setTWG_status, setCSections_status,
    setCChapters_status, setCurrentStep_status]

theorem applyUpdate_cs (p : ProgressData) (u : UpdatePayload) (now : String) :
    (applyUpdate p u now).completedSections =
      u.completedSections.getD p.completedSections := by
  simp only [applyUpdate]
  rw [pushChapterDetail_cs, pushError_cs, setTWG_cs, setCSections_cs, setCChapters_cs,
    setCurrentStep_cs]

theorem applyUpdate_cc (p : ProgressData) (u : UpdatePayload) (now : String) :
    (applyUpdate p u now).completedChapters =
      u.completedChapters.getD p.completedChapters := by
  simp only [applyUpdate]
  rw [pushChapterDetail_cc, pushError_cc, setTWG_cc, setCSections_cc, setCChapters_cc,
    setCurrentStep_cc]

theorem applyFail_status (p : ProgressData) (e : Option String) (now : String) :
    (applyFail p e now).status = Status.failed := by
  simp only [applyFail]
  rw [pushError_status]

theorem strAppend_assoc (a b c : String) : a ++ b ++ c = a ++ (b ++ c) := by
  cases a with
  | mk da =>
    cases b with
    | mk db =>
      cases c with
      | mk dc =>
        show String.mk (da ++ db ++ dc) = String.mk (da ++ (db ++ dc))
        rw [List.append_assoc]

/-! ## Claim C1 — GENERATE-stage failures and the persisted status -/

def c1Chapters : List OChapter :=
  [{ number := 1, title := "Chapter 1", sections := ["Introduction"], targetWordCount := 1000 }]

def c1Updates : List UpdatePayload :=
  pipelineUpdates (fun _ _ => none) (fun _ _ => "generation failed") c1Chapters

def c1Final : ProgressData :=
  foldApply (fun _ => "2024-01-01T00:01:00Z")
    (initRecord "run-1" "Graph Theory" 1 1 10000 "2024-01-01T00:00:00Z") 0 c1Updates

/-- C1: the claim states that when the GENERATE stage raises, the pipeline
calls the store's `fail` operation so the persisted status is `failed`, never
left at `in_progress`.  The code contradicts this: on a section failure the
stage's catch block issues only an `update` carrying the error message and
rethrows, so after the run aborts the stored status is still `in_progress`.
Here a one-chapter, one-section run whose generation call always fails is
evaluated: the stage aborts (`.2 = false`), yet folding every update the run
issued into the freshly initialized record leaves `status = in_progress`. -/
theorem generate_failure_leaves_in_progress :
    (generateEmits (fun _ _ => none) (fun _ _ => "generation failed") c1Chapters).2 = false ∧
    c1Final.status = Status.in_progress ∧ Status.in_progress ≠ Status.failed :=
  ⟨rfl, rfl, by decide⟩

/-! ## Claim C3 — status transitions of the progress store -/

def c3FailedRecord : ProgressData :=
  applyFail (initRecord "run-3" "Topic" 8 40 60000 "t0") (some "boom") "t1"

/-- C3 counterexample: the claim states that no store operation moves
`status` out of a terminal state.  But `complete` assigns
`status = 'completed'` unconditionally: applied to a record whose status is
the terminal `failed`, it moves it to `completed`. -/
theorem complete_after_fail_changes_status :
    c3FailedRecord.status = Status.failed ∧
    (applyComplete c3FailedRecord "t2").status = Status.completed := ⟨rfl, rfl⟩

/-- C3 amended: `update` never changes `status` (in particular updates issued
after a terminal status leave it unchanged), while `complete` and `fail` set
`status` unconditionally — including from a terminal state, so terminal
states are not protected against `complete`/`fail`. -/
theorem update_never_changes_status :
    (∀ (p : ProgressData) (u : UpdatePayload) (now : String),
      (applyUpdate p u now).status = p.status) ∧
    (∀ (p : ProgressData) (now : String), (applyComplete p now).status = Status.completed) ∧
    (∀ (p : ProgressData) (e : Option String) (now : String),
      (applyFail p e now).status = Status.failed) :=
  ⟨applyUpdate_status, fun _ _ => rfl, applyFail_status⟩

/-! ## Claim C4 — operations on a missing runId -/

def c4Input : ToolInput :=
  { action := PAction.update, workflowId := "run-1", completedSections := some 3 }

/-- C4 counterexample: the claim states that `update`/`complete`/`fail` on a
missing runId fail with an error that propagates to the caller.  The inner
body does throw `No progress found …`, but the tool's surrounding catch
absorbs it: `execute` returns normally with `success := false` and a message
instead of propagating. -/
theorem missing_run_error_absorbed :
    executeInner (fun _ => none) c4Input "t0" =
      Except.error "No progress found for workflow run-1" ∧
    (executeTool (fun _ => none) c4Input "t0").1 =
      { success := false, progress := none,
        message := some "Progress tracking failed: No progress found for workflow run-1" } :=
  ⟨rfl, rfl⟩

/-- C4 amended: for a runId with no stored record, each of `update`,
`complete` and `fail` raises `No progress found for workflow {runId}`
internally, but the tool's `execute` catches it and returns normally with
`success = false` and the message `Progress tracking failed: …`, leaving the
store unchanged; the failure is reported in the return value, not thrown to
the caller. -/
theorem missing_run_returns_failure_output (store : Store) (ctx : ToolInput) (now : String)
    (h1 : store ctx.workflowId = none)
    (h2 : ctx.action = PAction.update ∨ ctx.action = PAction.complete ∨
      ctx.action = PAction.fail) :
    executeTool store ctx now =
      ({ success := false, progress := none,
         message := some ("Progress tracking failed: No progress found for workflow " ++
           ctx.workflowId) },
       store) := by
  have hne : ¬ ctx.action = PAction.init := by
    rcases h2 with h | h | h <;> simp [h]
  unfold executeTool executeInner
  simp [hne, h1, ← strAppend_assoc]

/-- C4 witness: the amended theorem applied to the empty store and a concrete
`update` input. -/
theorem missing_run_returns_failure_output_witness :
    ((fun _ => none : Store) c4Input.workflowId = none) ∧
    executeTool (fun _ => none) c4Input "t0" =
      ({ success := false, progress := none,
         message := some ("Progress tracking failed: No progress found for workflow " ++
           c4Input.workflowId) },
       (fun _ => none : Store)) :=
  ⟨rfl, missing_run_returns_failure_output (fun _ => none) c4Input "t0" rfl (Or.inl rfl)⟩

/-! ## Claim C10 — falsy retryAttempts fall back to 3 attempts -/

/-- C10: `config.retryAttempts || 3` replaces a missing or zero
`retryAttempts` by the default 3, so the adapter's retry limit is 3, at least
one generation attempt is always made, and when every attempt fails exactly 3
attempts are performed. -/
theorem retry_default_three :
    effectiveMaxRetries (some 0) = 3 ∧ effectiveMaxRetries none = 3 ∧
    (∀ gen : Nat → Bool, 1 ≤ (runTrace gen (effectiveMaxRetries (some 0))).length) ∧
    (runTrace (fun _ => false) (effectiveMaxRetries none)).length = 3 := by
  refine ⟨rfl, rfl, fun gen => ?_, rfl⟩
  show 1 ≤ (attemptTraceAux gen 3 1 0).length
  simp only [attemptTraceAux, List.length_cons]
  exact Nat.succ_le_succ (Nat.zero_le _)

/-! ## Claim C5 — the derived progress percentage -/

def c5Record : ProgressData :=
  { workflowId := "run-5", topic := "T", startTime := "t0", currentStep := "s",
    completedChapters := 0, totalChapters := 8, completedSections := 0, totalSections := 10,
    totalWordsGenerated := 2000, targetWordCount := 1000, lastUpdate := "t0",
    status := Status.in_progress, errors := [], completedChapterDetails := [] }

/-- C5 counterexample: the claim states the reported percentage always lies
within 0..100.  The code does not clamp it: a record whose generated word
count is twice the target reports 200. -/
theorem progress_percentage_exceeds_100 :
    progressPercentage c5Record = 200 ∧ ¬ progressPercentage c5Record ≤ 100 := by
  have h : progressPercentage c5Record = 200 := by
    norm_num [progressPercentage, c5Record, jsRound, max_def]
  rw [h]
  norm_num

/-- The reported percentage is never negative. -/
theorem progress_percentage_nonneg (p : ProgressData) : 0 ≤ progressPercentage p := by
  unfold progressPercentage jsRound
  have hs : (0 : ℚ) ≤
      (if p.totalSections > 0 then (p.completedSections : ℚ) / (p.totalSections : ℚ) * 100
       else 0) := by
    split
    · positivity
    · exact le_refl 0
  refine Int.le_floor.mpr ?_
  have hm := le_trans hs (le_max_left _
    ((if p.targetWordCount > 0 then
        (p.totalWordsGenerated : ℚ) / (p.targetWordCount : ℚ) * 100 else 0)))
  push_cast
  linarith

/-- C5 amended: when both denominators are positive, the reported percentage
equals `round(max(completedSections/totalSections,
totalWordsGenerated/targetWordCount) * 100)` (a zero denominator makes the
corresponding ratio 0) and is always ≥ 0 — but it is not clamped above, so it
can exceed 100 (e.g. when `totalWordsGenerated > targetWordCount`). -/
theorem progress_percentage_formula (p : ProgressData)
    (h1 : p.totalSections > 0) (h2 : p.targetWordCount > 0) :
    progressPercentage p =
      jsRound (max ((p.completedSections : ℚ) / (p.totalSections : ℚ))
        ((p.totalWordsGenerated : ℚ) / (p.targetWordCount : ℚ)) * 100) ∧
    0 ≤ progressPercentage p := by
  have hmax : max ((p.completedSections : ℚ) / (p.totalSections : ℚ))
      ((p.totalWordsGenerated : ℚ) / (p.targetWordCount : ℚ)) * 100 =
      max ((p.completedSections : ℚ) / (p.totalSections : ℚ) * 100)
        ((p.totalWordsGenerated : ℚ) / (p.targetWordCount : ℚ) * 100) :=
    max_mul_of_nonneg _ _ (by norm_num)
  refine ⟨?_, progress_percentage_nonneg p⟩
  simp only [progressPercentage]
  rw [if_pos h1, if_pos h2, hmax]

def c5WitnessRecord : ProgressData :=
  { workflowId := "run-5w", topic := "T", startTime := "t0", currentStep := "s",
    completedChapters := 1, totalChapters := 8, completedSections := 1, totalSections := 4,
    totalWordsGenerated := 300, targetWordCount := 1000, lastUpdate := "t0",
    status := Status.in_progress, errors := [], completedChapterDetails := [] }

/-- C5 witness: the amended theorem applied to a concrete record
(1/4 sections, 300/1000 words → 30). -/
theorem progress_percentage_formula_witness :
    c5WitnessRecord.totalSections > 0 ∧ c5WitnessRecord.targetWordCount > 0 ∧
    (progressPercentage c5WitnessRecord =
        jsRound (max ((c5WitnessRecord.completedSections : ℚ) / (c5WitnessRecord.totalSections : ℚ))
          ((c5WitnessRecord.totalWordsGenerated : ℚ) / (c5WitnessRecord.targetWordCount : ℚ)) * 100) ∧
      0 ≤ progressPercentage c5WitnessRecord) :=
  ⟨by decide, by decide,
    progress_percentage_formula c5WitnessRecord (by decide) (by decide)⟩

/-! ## Claim C2 — the publication gate -/

theorem leadsWith_iff (n h : List Char) : leadsWith n h = true ↔ n <+: h := by
  induction n generalizing h with
  | nil => simp [leadsWith, List.nil_prefix]
  | cons a as ih =>
    cases h with
    | nil => simp [leadsWith]
    | cons b bs => simp [leadsWith, ih, List.cons_prefix_cons]

theorem includesAux_iff (hay n : List Char) : includesAux hay n = true ↔ n <:+: hay := by
  induction hay with
  | nil => simp [includesAux, List.infix_nil, List.isEmpty_iff]
  | cons c r ih => simp [includesAux, leadsWith_iff, ih, List.infix_cons_iff]

theorem includesAux_eq_false (hay n : List Char) :
    includesAux hay n = false ↔ ¬ n <:+: hay := by
  rw [← includesAux_iff]
  simp

/-- C2: the publication decision is `approved ⟺ qualityScore ≥ 7.0 and the
review text contains neither "not approved" nor "needs major revision" as a
case-insensitive substring`; in particular a review containing "needs major
revision" is rejected even with score 9. -/
theorem publication_gate_decision :
    (∀ (q : ℚ) (t : String), approvedForPublication q t = true ↔
      (7 ≤ q ∧ ¬ ContainsCI t "not approved" ∧ ¬ ContainsCI t "needs major revision")) ∧
    approvedForPublication 9
      "Score: 9. However, the chapter ordering needs major revision." = false := by
  constructor
  · intro q t
    simp only [approvedForPublication, jsIncludes, toLowerStr, ContainsCI,
      Bool.and_eq_true, Bool.not_eq_true', decide_eq_true_eq, includesAux_eq_false,
      and_assoc]
  · decide

/-! ## Claim C7 — the retry backoff schedule -/

theorem attemptTraceAux_wait (gen : Nat → Bool) :
    ∀ (fuel attempt wait : Nat), 1 ≤ attempt →
      wait = (if attempt = 1 then 0 else min (1000 * 2 ^ (attempt - 2)) 30000) →
      ∀ a w, (a, w) ∈ attemptTraceAux gen fuel attempt wait →
        w = if a = 1 then 0 else min (1000 * 2 ^ (a - 2)) 30000 := by
  intro fuel
  induction fuel with
  | zero =>
    intro attempt wait _ _ a w h
    simp [attemptTraceAux] at h
  | succ fuel ih =>
    intro attempt wait h1 hw a w h
    simp only [attemptTraceAux, List.mem_cons] at h
    rcases h with h | h
    · rw [Prod.mk.injEq] at h
      obtain ⟨rfl, rfl⟩ := h
      exact hw
    · by_cases hg : gen attempt = true
      · simp [hg] at h
      · by_cases hf : fuel = 0
        · simp [hg, hf] at h
        · simp only [hg, hf, Bool.false_eq_true, if_false] at h
          refine ih (attempt + 1) (backoffMs attempt) (by omega) ?_ a w h
          have h2 : ¬ (attempt + 1 = 1) := by omega
          have h3 : attempt + 1 - 2 = attempt - 1 := by omega
          rw [if_neg h2, h3]
          rfl

/-- C7: every attempt recorded in the adapter's retry trace is preceded by a
wait of `min(1000 * 2^(k-2), 30000)` ms for attempts `k ≥ 2`, and attempt 1
by no wait. -/
theorem backoff_schedule (gen : Nat → Bool) (r a w : Nat)
    (h : (a, w) ∈ runTrace gen r) :
    w = if a = 1 then 0 else min (1000 * 2 ^ (a - 2)) 30000 :=
  attemptTraceAux_wait gen r 1 0 (le_refl 1) rfl a w h

/-- C7 witness: in a 3-attempt trace whose generation calls all fail, the
wait before attempt 2 is `min(1000 * 2^0, 30000) = 1000` ms. -/
theorem backoff_schedule_witness :
    ((2, 1000) ∈ runTrace (fun _ => false) 3) ∧
    (1000 = if 2 = 1 then 0 else min (1000 * 2 ^ (2 - 2)) 30000) :=
  ⟨by decide, backoff_schedule (fun _ => false) 3 2 1000 (by decide)⟩

/-! ## Claim C6 — the fallback skeleton of the outline parser -/

theorem parseLoop_no_chapters (wpc : Nat) :
    ∀ (lines : List String) (num : Nat) (acc : List OChapter),
      (∀ line ∈ lines, isChapterHeaderLine line = false) →
      parseLoop wpc lines none num acc = acc := by
  intro lines
  induction lines with
  | nil => intro num acc _; rfl
  | cons line rest ih =>
    intro num acc h
    have hline := h line (List.mem_cons_self _ _)
    have hrest : ∀ l ∈ rest, isChapterHeaderLine l = false :=
      fun l hl => h l (List.mem_cons_of_mem _ hl)
    simp only [parseLoop]
    rcases hm : chMatch (jsTrim line).data with _ | cap
    · rcases hs : secMatch (jsTrim line).data with _ | cap2 <;>
        simp only [hs] <;> exact ih num acc hrest
    · have hd : beginsWithDash (jsTrim line).data = true := by
        by_contra hcontra
        rw [isChapterHeaderLine, hm] at hline
        simp at hline
        exact hcontra hline
      rw [hd]
      simp only [if_true]
      rcases hs : secMatch (jsTrim line).data with _ | cap2 <;>
        simp only [hs] <;> exact ih num acc hrest

/-- C6: when no line of the input is recognized as a chapter header
(in particular for the empty string), the parser returns exactly the default
skeleton: 8 chapters numbered 1..8, titled "Chapter 1".."Chapter 8", each
with the fixed five-section list and
`targetWordCount = floor(requestedTotalWordCount / 10)`. -/
theorem fallback_skeleton (text : String) (w : Nat)
    (h : ∀ line ∈ jsSplitLines text, isChapterHeaderLine line = false) :
    parseOutlineIntoChapters text w =
      (List.range 8).map (fun i =>
        { number := i + 1, title := "Chapter " ++ toString (i + 1),
          sections := ["Introduction", "Core Concepts", "Practical Examples",
                       "Advanced Topics", "Summary"],
          targetWordCount := w / 10 }) := by
  show (let wordsPerChapter := w / 10
        let chapters := parseLoop wordsPerChapter (jsSplitLines text) none 1 []
        if chapters.isEmpty then
          (List.range 8).map (fun i =>
            { number := i + 1, title := "Chapter " ++ toString (i + 1),
              sections := ["Introduction", "Core Concepts", "Practical Examples",
                           "Advanced Topics", "Summary"],
              targetWordCount := wordsPerChapter })
        else chapters) = _
  simp only
  rw [parseLoop_no_chapters (w / 10) (jsSplitLines text) 1 [] h]
  rfl

/-- C6 witness: the fallback theorem applied to the empty outline. -/
theorem fallback_skeleton_witness :
    (∀ line ∈ jsSplitLines "", isChapterHeaderLine line = false) ∧
    parseOutlineIntoChapters "" 60000 =
      (List.range 8).map (fun i =>
        { number := i + 1, title := "Chapter " ++ toString (i + 1),
          sections := ["Introduction", "Core Concepts", "Practical Examples",
                       "Advanced Topics", "Summary"],
          targetWordCount := 60000 / 10 }) :=
  ⟨by decide, fallback_skeleton "" 60000 (by decide)⟩

/-! ## Claim C8 — the word-count proxy -/

/-- C8 counterexample: the claim states `wordCount` equals the
whitespace-delimited token count for any text, with the empty string giving
0.  JavaScript's `"".split(/\s+/)` is `[""]`, so the code computes 1 for the
empty string while the token count is 0. -/
theorem word_count_empty_string_is_one :
    wordCount "" = 1 ∧ tokenCount "" = 0 := ⟨rfl, rfl⟩

/-- 1 when the list starts with whitespace. -/
def hwFlag : List Char → Nat
  | c :: _ => if isSpaceCh c then 1 else 0
  | [] => 0

/-- 1 when the previous character (head of the remaining list read in
context) starts a token; used to relate the two token-counter modes. -/
def hnwFlag : List Char → Nat
  | c :: _ => if isSpaceCh c then 0 else 1
  | [] => 0

/-- 1 when the list is empty or ends with whitespace. -/
def ewFlag : List Char → Nat
  | [] => 1
  | [c] => if isSpaceCh c then 1 else 0
  | _ :: c :: r => ewFlag (c :: r)

theorem tokenCountAux_false_eq (cs : List Char) :
    tokenCountAux cs false = tokenCountAux cs true + hnwFlag cs := by
  cases cs with
  | nil => rfl
  | cons c r =>
    by_cases hc : isSpaceCh c = true <;> simp [tokenCountAux, hnwFlag, hc] <;> omega

theorem ewFlag_cons_space (c : Char) (r : List Char) (hc : isSpaceCh c = true) :
    ewFlag (c :: r) = ewFlag r := by
  cases r with
  | nil => simp [ewFlag, hc]
  | cons d r2 => rfl

theorem jsSplitWsAux_length_cur (cs : List Char) :
    ∀ (cur cur' : List Char) (pw : Bool),
      (jsSplitWsAux cs cur pw).length = (jsSplitWsAux cs cur' pw).length := by
  induction cs with
  | nil => intro cur cur' pw; rfl
  | cons c r ih =>
    intro cur cur' pw
    by_cases hc : isSpaceCh c = true
    · cases pw
      · simp only [jsSplitWsAux, hc, if_true, Bool.false_eq_true, if_false, List.length_cons]
      · simp only [jsSplitWsAux, hc, if_true]
        exact ih cur cur' true
    · simp only [jsSplitWsAux, hc, Bool.false_eq_true, if_false]
      exact ih (c :: cur) (c :: cur') false

theorem jsSplitWs_length (cs : List Char) :
    (jsSplitWsAux cs [] true).length = tokenCountAux cs false + ewFlag cs ∧
    (jsSplitWsAux cs [] false).length = tokenCountAux cs false + hwFlag cs + ewFlag cs := by
  induction cs with
  | nil => exact ⟨rfl, rfl⟩
  | cons c r ih =>
    obtain ⟨ih1, ih2⟩ := ih
    by_cases hc : isSpaceCh c = true
    · constructor
      · simp only [jsSplitWsAux, hc, if_true, tokenCountAux, ewFlag_cons_space c r hc]
        exact ih1
      · simp only [jsSplitWsAux, hc, if_true, Bool.false_eq_true, if_false, List.length_cons,
          tokenCountAux, hwFlag, ewFlag_cons_space c r hc]
        omega
    · have hcur : (jsSplitWsAux r [c] false).length = (jsSplitWsAux r [] false).length :=
        jsSplitWsAux_length_cur r [c] [] false
      have key : (jsSplitWsAux r [c] false).length =
          1 + tokenCountAux r true + ewFlag (c :: r) := by
        rw [hcur, ih2, tokenCountAux_false_eq]
        cases r with
        | nil => simp [hnwFlag, hwFlag, ewFlag, hc, tokenCountAux]
        | cons d r2 =>
          have hew : ewFlag (c :: d :: r2) = ewFlag (d :: r2) := rfl
          rw [hew]
          by_cases hd : isSpaceCh d = true <;> simp [hnwFlag, hwFlag, hd] <;> omega
      constructor
      · simp only [jsSplitWsAux, hc, Bool.false_eq_true, if_false, tokenCountAux]
        rw [key]
      · simp only [jsSplitWsAux, hc, Bool.false_eq_true, if_false, tokenCountAux, hwFlag]
        rw [key]
        omega

theorem hw_bridge (s : String) : (if startsWithWs s then 1 else 0) = hwFlag s.data := by
  unfold startsWithWs hwFlag
  cases s.data with
  | nil => rfl
  | cons c r => by_cases hc : isSpaceCh c = true <;> simp [hc]

theorem ewFlag_eq_getLast (cs : List Char) :
    ewFlag cs = (match cs.getLast? with
      | some c => if isSpaceCh c then 1 else 0
      | none => 1) := by
  induction cs with
  | nil => rfl
  | cons c r ih =>
    cases r with
    | nil => rfl
    | cons d r2 =>
      rw [show ewFlag (c :: d :: r2) = ewFlag (d :: r2) from rfl, ih,
        List.getLast?_cons_cons]

theorem ew_bridge (s : String) :
    (if endsWithWs s then 1 else 0) + (if s.data.isEmpty then 1 else 0) = ewFlag s.data := by
  unfold endsWithWs
  rw [ewFlag_eq_getLast]
  cases hd : s.data with
  | nil => simp
  | cons c r =>
    have : (c :: r).getLast? = some ((c :: r).getLast (by simp)) := List.getLast?_eq_getLast _ _
    rw [this]
    by_cases hc : isSpaceCh ((c :: r).getLast (by simp)) = true <;> simp [hc]

/-- C8 amended: `wordCount text` (the length of `text.split(/\s+/)`) equals
the whitespace-delimited token count plus one for a leading whitespace
character, plus one for a trailing whitespace character, plus one if the text
is empty.  In particular it equals the token count exactly when the text is
nonempty and neither starts nor ends with whitespace, and the empty string
yields 1, not 0. -/
theorem word_count_token_relation (text : String) :
    wordCount text = tokenCount text + (if startsWithWs text then 1 else 0) +
      (if endsWithWs text then 1 else 0) + (if text.data.isEmpty then 1 else 0) := by
  have h := (jsSplitWs_length text.data).2
  unfold wordCount jsSplitWs tokenCount
  rw [h, hw_bridge]
  have hb := ew_bridge text
  omega

/-! ## Claim C9 — monotone counters over the pipeline's update sequence -/

theorem counters_step_none (r : ProgressData) (u : UpdatePayload) (now : String)
    (h1 : u.completedSections = none) (h2 : u.completedChapters = none) :
    r.completedSections ≤ (applyUpdate r u now).completedSections ∧
    r.completedChapters ≤ (applyUpdate r u now).completedChapters := by
  rw [applyUpdate_cs, applyUpdate_cc, h1, h2]
  exact ⟨le_refl _, le_refl _⟩

theorem countersMono_append (nows : Nat → String) :
    ∀ (us vs : List UpdatePayload) (r : ProgressData) (k : Nat),
      CountersMono nows r k (us ++ vs) ↔
        CountersMono nows r k us ∧
          CountersMono nows (foldApply nows r k us) (k + us.length) vs := by
  intro us
  induction us with
  | nil =>
    intro vs r k
    simp [CountersMono, foldApply]
  | cons u us ih =>
    intro vs r k
    simp only [List.cons_append, CountersMono, foldApply, List.length_cons, List.append_eq]
    rw [ih]
    have hk : k + (us.length + 1) = (k + 1) + us.length := by omega
    rw [hk]
    exact and_assoc.symm

theorem sectionEmits_mono (gen : Nat → Nat → Option Nat) (emsg : Nat → Nat → String)
    (nows : Nat → String) (ci : Nat) :
    ∀ (secs : List String) (si cs tot chWC : Nat) (r : ProgressData) (k : Nat),
      r.completedSections = cs →
      CountersMono nows r k (sectionEmits gen emsg ci secs si cs tot chWC).1 ∧
      (foldApply nows r k (sectionEmits gen emsg ci secs si cs tot chWC).1).completedChapters
        = r.completedChapters ∧
      (∀ cs1 chWC1, (sectionEmits gen emsg ci secs si cs tot chWC).2 = some (cs1, chWC1) →
        (foldApply nows r k (sectionEmits gen emsg ci secs si cs tot chWC).1).completedSections
          = cs1) := by
  intro secs
  induction secs with
  | nil =>
    intro si cs tot chWC r k hcs
    refine ⟨trivial, rfl, fun cs1 chWC1 h => ?_⟩
    injection h with h2
    injection h2 with h3 h4
    rw [← h3]
    exact hcs
  | cons s rest ih =>
    intro si cs tot chWC r k hcs
    cases hg : gen ci si with
    | some w =>
      simp only [sectionEmits, hg]
      set u : UpdatePayload :=
        { completedSections := some (cs + 1),
          totalWordsGenerated := some (tot + (chWC + w)) } with hu
      have hcs1 : (applyUpdate r u (nows k)).completedSections = cs + 1 := by
        rw [applyUpdate_cs]; rfl
      have hcc1 : (applyUpdate r u (nows k)).completedChapters = r.completedChapters := by
        rw [applyUpdate_cc]; rfl
      obtain ⟨m1, m2, m3⟩ := ih (si + 1) (cs + 1) tot (chWC + w)
        (applyUpdate r u (nows k)) (k + 1) hcs1
      refine ⟨⟨⟨?_, ?_⟩, m1⟩, ?_, ?_⟩
      · rw [hcs1, hcs]; exact Nat.le_succ cs
      · rw [hcc1]
      · show (foldApply nows (applyUpdate r u (nows k)) (k + 1) _).completedChapters = _
        rw [m2, hcc1]
      · intro cs1 chWC1 h
        exact m3 cs1 chWC1 h
    | none =>
      simp only [sectionEmits, hg]
      set u : UpdatePayload :=
        { error := some ("Failed to generate section \"" ++ s ++ "\": " ++ emsg ci si) } with hu
      have hcs1 : (applyUpdate r u (nows k)).completedSections = r.completedSections := by
        rw [applyUpdate_cs]; rfl
      have hcc1 : (applyUpdate r u (nows k)).completedChapters = r.completedChapters := by
        rw [applyUpdate_cc]; rfl
      refine ⟨⟨⟨le_of_eq hcs1.symm, le_of_eq hcc1.symm⟩, trivial⟩, ?_, ?_⟩
      · show (foldApply nows (applyUpdate r u (nows k)) (k + 1) []).completedChapters = _
        exact hcc1
      · intro cs1 chWC1 h
        exact absurd h (by simp)

theorem chapterEmits_mono (gen : Nat → Nat → Option Nat) (emsg : Nat → Nat → String)
    (nows : Nat → String) :
    ∀ (chs : List OChapter) (ci cs tot done : Nat) (r : ProgressData) (k : Nat),
      r.completedSections ≤ cs → r.completedChapters ≤ done →
      CountersMono nows r k (chapterEmits gen emsg chs ci cs tot done).1 := by
  intro chs
  induction chs with
  | nil =>
    intro ci cs tot done r k _ _
    exact trivial
  | cons ch rest ih =>
    intro ci cs tot done r k hcs hcc
    set u0 : UpdatePayload :=
      { currentStep := some ("Generating Chapter " ++ toString ch.number ++ ": " ++ ch.title),
        completedSections := some cs } with hu0
    have hcs1 : (applyUpdate r u0 (nows k)).completedSections = cs := by
      rw [applyUpdate_cs]; rfl
    have hcc1 : (applyUpdate r u0 (nows k)).completedChapters = r.completedChapters := by
      rw [applyUpdate_cc]; rfl
    have hstep0 : r.completedSections ≤ (applyUpdate r u0 (nows k)).completedSections ∧
        r.completedChapters ≤ (applyUpdate r u0 (nows k)).completedChapters := by
      rw [hcs1, hcc1]; exact ⟨hcs, le_refl _⟩
    obtain ⟨m1, m2, m3⟩ := sectionEmits_mono gen emsg nows ci ch.sections 0 cs tot 0
      (applyUpdate r u0 (nows k)) (k + 1) hcs1
    cases hse : sectionEmits gen emsg ci ch.sections 0 cs tot 0 with
    | mk us res =>
      rw [hse] at m1 m2 m3
      cases res with
      | some p =>
        obtain ⟨cs1, chWC⟩ := p
        simp only [chapterEmits, hse]
        refine ⟨hstep0, (countersMono_append nows us _ _ _).mpr ⟨m1, ?_⟩⟩
        set r2 := foldApply nows (applyUpdate r u0 (nows k)) (k + 1) us with hr2
        set u1 : UpdatePayload :=
          { completedChapters := some (done + 1), totalWordsGenerated := some (tot + chWC),
            chapterCompleted := some (ch.number, ch.title, chWC) } with hu1
        set k2 := (k + 1) + us.length with hk2
        have hcs2 : (applyUpdate r2 u1 (nows k2)).completedSections = r2.completedSections := by
          rw [applyUpdate_cs]; rfl
        have hcc2 : (applyUpdate r2 u1 (nows k2)).completedChapters = done + 1 := by
          rw [applyUpdate_cc]; rfl
        refine ⟨⟨le_of_eq hcs2.symm, ?_⟩, ?_⟩
        · rw [hcc2, m2, hcc1]
          exact le_trans hcc (Nat.le_succ done)
        · refine ih (ci + 1) cs1 (tot + chWC) (done + 1) (applyUpdate r2 u1 (nows k2)) (k2 + 1)
            ?_ ?_
          · rw [hcs2]
            exact le_of_eq (m3 cs1 chWC rfl)
          · rw [hcc2]
      | none =>
        simp only [chapterEmits, hse]
        exact ⟨hstep0, m1⟩

/-- C9: over the sequence of `update` calls one run issues to the progress
store (the GENERATE stage's chapter/section updates plus the
`currentStep`-only updates of REVIEW and PUBLISH), the stored
`completedSections` and `completedChapters` never decrease from one update to
the next, starting from the freshly initialized record. -/
theorem pipeline_counters_monotone (gen : Nat → Nat → Option Nat) (emsg : Nat → Nat → String)
    (chapters : List OChapter) (nows : Nat → String)
    (wid topic t0 : String) (tc ts twc : Nat) :
    CountersMono nows (initRecord wid topic tc ts twc t0) 0
      (pipelineUpdates gen emsg chapters) := by
  have hgen : CountersMono nows (initRecord wid topic tc ts twc t0) 0
      (generateEmits gen emsg chapters).1 :=
    chapterEmits_mono gen emsg nows chapters 0 0 0 0 _ 0 (le_of_eq rfl) (le_of_eq rfl)
  unfold pipelineUpdates
  cases hok : (generateEmits gen emsg chapters).2 with
  | false => simp only [hok, Bool.false_eq_true, if_false]; exact hgen
  | true =>
    simp only [hok, if_true]
    rw [countersMono_append]
    refine ⟨hgen, ?_, ?_, trivial⟩
    · exact counters_step_none _ _ _ rfl rfl
    · exact counters_step_none _ _ _ rfl rfl

end EduContent
